import Mathlib

/-!
# spotwatch: the per-policy spot price monitor

A shallow embedding of `src/spotwatch/spotwatch.go`.

* Pointers to `PriceDatum` are modelled by the values they point to: every datum is
  allocated once and never written afterwards.
* The library calls the source makes (`strconv.ParseFloat`, `sort.Sort`, the EC2 client) are
  parameters of the model: `Lib` and `Client`.
* The policy's channel is modelled by the list of values sent on it so far, the number of values
  `pending` in its buffer of capacity 1000, a `closed` flag and the `p.channel == nil` flag. A
  send on a full buffer waits for the consumer: the goroutine is `blocked` and the run is followed
  no further. The consumer takes values between two iterations of the loop (`Event.receive`).
* A goroutine running `monitorPolicy` is a `PollerState`; a panic keeps the state reached so far,
  so that what was sent before the panic remains visible.
-/

set_option linter.dupNamespace false

namespace Spotwatch

/-! ## Library types -/

/-- Go `time.Time`: the instant in nanoseconds and the identity of the location pointer.
`==` on `time.Time` compares both, `Before` only the instant. -/
structure Time where
  nanos : Int
  loc : Nat
  deriving DecidableEq, Repr

/-- Go `t.Before(u)`. -/
def Time.Before (t u : Time) : Bool := decide (t.nanos < u.nanos)

/-- Go `t.Add(d)`, with `d` in nanoseconds. -/
def Time.Add (t : Time) (d : Int) : Time := { t with nanos := t.nanos + d }

/-- Go `time.Millisecond`. -/
def Millisecond : Int := 1000000

/-- Go `float64`, as its IEEE 754 bit pattern. -/
structure Float64 where
  bits : Nat
  deriving DecidableEq, Repr

/-- True for the bit patterns that are a NaN: exponent all ones, mantissa not zero. -/
def Float64.isNaN (f : Float64) : Bool :=
  (f.bits / 2 ^ 52) % 2 ^ 11 == 2047 && f.bits % 2 ^ 52 != 0

/-- True for `+0` and `-0`. -/
def Float64.isZero (f : Float64) : Bool := f.bits % 2 ^ 63 == 0

/-- Go `==` on `float64`: a NaN equals nothing, the two zeros are equal. -/
def Float64.eq (a b : Float64) : Bool :=
  !a.isNaN && !b.isNaN && (a.bits % 2 ^ 64 == b.bits % 2 ^ 64 || (a.isZero && b.isZero))

/-! ## Data model (lines 14-55) -/

/-- PriceDatum represents a single spot instance price history data point. -/
structure PriceDatum where
  AvailabilityZone : String
  InstanceType : String
  ProductDescription : String
  Price : Float64
  Timestamp : Time
  deriving DecidableEq, Repr

/-- Go `*a == *b` on `PriceDatum`: field by field with the `==` of each field type. -/
def PriceDatum.eq (a b : PriceDatum) : Bool :=
  a.AvailabilityZone == b.AvailabilityZone && a.InstanceType == b.InstanceType &&
    a.ProductDescription == b.ProductDescription && a.Price.eq b.Price &&
    decide (a.Timestamp = b.Timestamp)

/-- The method `byTimestamp.Less`, on the two elements `b[i]` and `b[j]`. -/
def byTimestamp.Less (x y : PriceDatum) : Bool := x.Timestamp.Before y.Timestamp

/-- Modelled from the spec: one entry of the price history a query returns (the SDK type
`ec2.SpotPrice` is not part of the repository); section 4.3 lists its fields. -/
structure SpotPrice where
  AvailabilityZone : String
  InstanceType : String
  ProductDescription : String
  SpotPrice : String
  Timestamp : Time
  deriving DecidableEq, Repr

/-- The fields of `ec2.DescribeSpotPriceHistoryRequest` that `monitorPolicy` sets. -/
structure Request where
  InstanceTypes : List String
  ProductDescriptions : List String
  AvailabilityZone : Option String
  StartTime : Option Time
  deriving DecidableEq, Repr

/-- What `cli.DescribeSpotPriceHistory` does at one call: the error, or `resp.SpotPriceHistory`. -/
abbrev Client := Request → Except String (List SpotPrice)

/-- A client that answers every request with the response `resp`. -/
def respond (resp : List SpotPrice) : Client := fun _ => Except.ok resp

/-- The library functions the poller calls. `ParseFloat s` is `strconv.ParseFloat(s, 64)`, `none`
for an error; `sortSort l` is the slice after `sort.Sort(byTimestamp(l))`. -/
structure Lib where
  ParseFloat : String → Option Float64
  sortSort : List PriceDatum → List PriceDatum

/-- The contract of `sort.Sort` for `byTimestamp`: the elements are kept and no element is `Less`
than one before it. -/
def SortContract (lib : Lib) : Prop :=
  ∀ l, (lib.sortSort l).Perm l ∧ (lib.sortSort l).Pairwise (fun a b => byTimestamp.Less b a = false)

/-- Policy specifies which region and what instance should be monitored. The fields `channel` and
`done` are part of `Poller`. -/
structure Policy where
  Region : String
  AvailabilityZone : String
  ProductDescription : String
  InstanceType : String
  deriving DecidableEq, Repr

/-- The raw price data gathered from a policy. -/
structure policyData where
  priceData : List PriceDatum
  deriving DecidableEq, Repr

/-- What a run of `monitorPolicy` reads and writes: the policy with its channel (the values sent
so far, the number of them still in the buffer, the two flags), the `policyData` it fetched from
the registry, its request parameters, and two logs: the requests issued and the value of
`pData.priceData` at each `pData.Unlock()`. -/
structure Poller where
  policy : Policy
  priceData : List PriceDatum
  sent : List PriceDatum
  pending : Nat
  closed : Bool
  channelNil : Bool
  requestParameters : Request
  queries : List Request
  unlocks : List (List PriceDatum)
  deriving DecidableEq, Repr

/-- The ways `monitorPolicy` panics. -/
inductive Panic where
  | queryErr (msg : String)
  | parseErr (s : String)
  | indexOutOfRange (idx : Int) (len : Nat)
  | sendOnClosedChannel
  | closeOfClosedChannel
  | closeOfNilChannel
  deriving DecidableEq, Repr

/-- Where a goroutine running `monitorPolicy` stands. -/
inductive PollerState where
  | bootstrapping (st : Poller)
  | polling (st : Poller)
  | terminated (st : Poller)
  | panicked (e : Panic) (st : Poller)
  | blocked (st : Poller)
  deriving DecidableEq, Repr

/-- The data of a goroutine, wherever it stands. -/
def PollerState.state : PollerState → Poller
  | .bootstrapping st => st
  | .polling st => st
  | .terminated st => st
  | .panicked _ st => st
  | .blocked st => st

/-! ## monitorPolicy (lines 82-144) -/

/-- Go slice indexing `s[i]`: `none` stands for the out-of-range panic. -/
def index {α : Type} (s : List α) (i : Int) : Option α :=
  if 0 ≤ i then s[i.toNat]? else none

/-- Lines 102-106 and 126-130: the `PriceDatum` built from one returned entry, `none` when the
price does not parse. -/
def toDatum (lib : Lib) (spotPrice : SpotPrice) : Option PriceDatum :=
  match lib.ParseFloat spotPrice.SpotPrice with
  | none => none
  | some price =>
    some ⟨spotPrice.AvailabilityZone, spotPrice.InstanceType, spotPrice.ProductDescription,
      price, spotPrice.Timestamp⟩

/-- Line 73: the capacity of `make(chan *PriceDatum, 1000)`. -/
def channelCapacity : Nat := 1000

/-- Line 135, `p.channel <- datum`: a send on a nil channel blocks forever, a send on a closed
channel panics, a send on a full buffer blocks until the consumer receives. -/
def send (st : Poller) (datum : PriceDatum) : PollerState :=
  if st.channelNil then .blocked st
  else if st.closed then .panicked .sendOnClosedChannel st
  else if channelCapacity ≤ st.pending then .blocked st
  else .polling { st with sent := st.sent ++ [datum], pending := st.pending + 1 }

/-- Lines 101-107: the loop over the bootstrap response. -/
def bootLoop (lib : Lib) : List SpotPrice → Poller → PollerState
  | [], st => .polling st
  | spotPrice :: rest, st =>
    match toDatum lib spotPrice with
    | none => .panicked (.parseErr spotPrice.SpotPrice) st
    | some datum => bootLoop lib rest { st with priceData := st.priceData ++ [datum] }

/-- Lines 91-109: the bootstrap phase. -/
def bootstrap (lib : Lib) (cli : Client) (st : Poller) : PollerState :=
  let requestParameters : Request :=
    { InstanceTypes := [st.policy.InstanceType]
      ProductDescriptions := [st.policy.ProductDescription]
      AvailabilityZone := some st.policy.AvailabilityZone
      StartTime := none }
  let st1 := { st with requestParameters := requestParameters
                       queries := st.queries ++ [requestParameters] }
  match cli requestParameters with
  | .error err => .panicked (.queryErr err) st1
  | .ok resp =>
    match bootLoop lib resp st1 with
    | .polling st2 =>
      let sorted := lib.sortSort st2.priceData
      .polling { st2 with priceData := sorted, unlocks := st2.unlocks ++ [sorted] }
    | other => other

/-- Lines 125-137: the loop over the incremental response, `k = len(resp.SpotPriceHistory)`, the
first argument the loop index `i`. Line 136 is `append` with no element to add. -/
def pollLoop (lib : Lib) (k : Nat) : Nat → List SpotPrice → Poller → PollerState
  | _, [], st => .polling st
  | i, spotPrice :: rest, st =>
    match toDatum lib spotPrice with
    | none => .panicked (.parseErr spotPrice.SpotPrice) st
    | some datum =>
      let idx : Int := (st.priceData.length : Int) - (k : Int) + (i : Int)
      match index st.priceData idx with
      | none => .panicked (.indexOutOfRange idx st.priceData.length) st
      | some cached =>
        if cached.eq datum then pollLoop lib k (i + 1) rest st
        else
          match send st datum with
          | .polling st1 =>
            pollLoop lib k (i + 1) rest { st1 with priceData := st1.priceData ++ [] }
          | other => other

/-- Lines 118-138: one poll cycle. -/
def pollCycle (lib : Lib) (cli : Client) (st : Poller) : PollerState :=
  let idx : Int := (st.priceData.length : Int) - 1
  match index st.priceData idx with
  | none => .panicked (.indexOutOfRange idx st.priceData.length) st
  | some last =>
    let requestParameters : Request :=
      { st.requestParameters with StartTime := some (last.Timestamp.Add (Millisecond * 5)) }
    let st1 := { st with requestParameters := requestParameters
                         queries := st.queries ++ [requestParameters] }
    match cli requestParameters with
    | .error err => .panicked (.queryErr err) st1
    | .ok resp =>
      match pollLoop lib resp.length 0 resp st1 with
      | .polling st2 => .polling { st2 with unlocks := st2.unlocks ++ [st2.priceData] }
      | other => other

/-- What happens while the poller is at the `select` of line 112: it receives the cancellation
signal, or the timer, after which the client answers as given; or the consumer takes one value
from the channel and the poller keeps waiting. -/
inductive Event where
  | done
  | timeout (cli : Client)
  | receive

/-- Lines 114-115: `close(p.channel); p.channel = nil`. -/
def closeChannel (st : Poller) : PollerState :=
  if st.channelNil then .panicked .closeOfNilChannel st
  else if st.closed then .panicked .closeOfClosedChannel st
  else .polling { st with closed := true, channelNil := true }

/-- Lines 140-142: the loop is left once `p.channel == nil`. -/
def checkExit : PollerState → PollerState
  | .polling st => if st.channelNil then .terminated st else .polling st
  | other => other

/-- Lines 111-143: one iteration of the `for` loop; a `receive` of the consumer is no iteration,
it frees one place of the buffer. -/
def loopIter (lib : Lib) (ev : Event) (st : Poller) : PollerState :=
  match ev with
  | .done => checkExit (closeChannel st)
  | .timeout cli => checkExit (pollCycle lib cli st)
  | .receive => .polling { st with pending := st.pending - 1 }

/-- The `for` loop of line 111 over the events its `select` receives. -/
def runLoop (lib : Lib) : List Event → PollerState → PollerState
  | ev :: rest, .polling st => runLoop lib rest (loopIter lib ev st)
  | _, other => other

/-- The goroutine started by `AddNewPolicy`. Lines 84-89 fetch the `policyData` and build the
client: they are the arguments `st` and `cli`. Then bootstrap, with the client answering as `cli`,
then the loop over `events`. -/
def monitorPolicy (lib : Lib) (cli : Client) (events : List Event) (st : Poller) : PollerState :=
  runLoop lib events (bootstrap lib cli st)

/-! ## Monitor (lines 49-80 and 146-152) -/

/-- The identity of a `*Policy`. -/
abbrev PolicyPtr := Nat

/-- Monitor is the main object which users use to interact with the library. The map holds the
`policyData` as registered; the poller works on the `priceData` of its `Poller`. -/
structure Monitor where
  policies : PolicyPtr → Option policyData

/-- The monitor together with the goroutines started for its policies. -/
structure World where
  m : Monitor
  goroutines : PolicyPtr → Option PollerState

/-- NewMonitor creates a new spot price monitor. -/
def NewMonitor : Monitor := { policies := fun _ => none }

/-- A monitor just created: no goroutine runs. -/
def newWorld : World := { m := NewMonitor, goroutines := fun _ => none }

/-- The poller data `AddNewPolicy` sets up: both channels made, an empty `priceData`. -/
def newPoller (p : Policy) : Poller :=
  { policy := p
    priceData := []
    sent := []
    pending := 0
    closed := false
    channelNil := false
    requestParameters := ⟨[], [], none, none⟩
    queries := []
    unlocks := [] }

/-- AddNewPolicy adds a policy to the monitor and starts monitoring it. The channel returned is
the one of the `Poller` of the goroutine started. -/
def AddNewPolicy (w : World) (ptr : PolicyPtr) (p : Policy) : World :=
  let data : policyData := { priceData := [] }
  { m := { policies := Function.update w.m.policies ptr (some data) }
    goroutines := Function.update w.goroutines ptr (some (.bootstrapping (newPoller p))) }

/-- Lines 146-152. The send on the unbuffered `p.done` completes when the poller of `ptr` takes
the `done` case of its `select`; `none` when no goroutine of `ptr` waits there. -/
def removePolicy (lib : Lib) (w : World) (ptr : PolicyPtr) : Option World :=
  match w.goroutines ptr with
  | some (.polling st) =>
    some { m := { policies := Function.update w.m.policies ptr none }
           goroutines := Function.update w.goroutines ptr (some (loopIter lib .done st)) }
  | _ => none

/-! ## Concrete library, for evaluation -/

/-- The restriction of `strconv.ParseFloat` to four literals. -/
def sampleParseFloat (s : String) : Option Float64 :=
  if s = "0.25" then some ⟨0x3FD0000000000000⟩
  else if s = "0.5" then some ⟨0x3FE0000000000000⟩
  else if s = "1" then some ⟨0x3FF0000000000000⟩
  else if s = "NaN" then some ⟨0x7FF8000000000001⟩
  else none

/-- A library whose `sortSort` is an insertion sort. -/
def sampleLib : Lib :=
  { ParseFloat := sampleParseFloat
    sortSort := List.insertionSort (fun a b => byTimestamp.Less b a = false) }

/-- A returned entry of zone `us-east-1a`, type `m3.medium`, with the given price and instant. -/
def entry (price : String) (t : Int) : SpotPrice :=
  ⟨"us-east-1a", "m3.medium", "Linux/UNIX", price, ⟨t, 0⟩⟩

/-- The datum `entry` converts to, given the parsed price. -/
def datum (bits : Nat) (t : Int) : PriceDatum :=
  ⟨"us-east-1a", "m3.medium", "Linux/UNIX", ⟨bits⟩, ⟨t, 0⟩⟩

/-- A policy for `us-east-1`. -/
def samplePolicy : Policy := ⟨"us-east-1", "us-east-1a", "Linux/UNIX", "m3.medium"⟩

/-- The delivered sequence as positional dedup words it: of the incoming `data`, laid along the
cache `window`, the entries that differ (Go `==`) from the cache entry at the same position. -/
def positionalDedup (window data : List PriceDatum) : List PriceDatum :=
  ((window.zip data).filter (fun cd => !cd.1.eq cd.2)).map Prod.snd

/-- Ascending by timestamp, as `sort.Sort` leaves a `byTimestamp`. -/
def Sorted (l : List PriceDatum) : Prop := l.Pairwise (fun a b => byTimestamp.Less b a = false)

/-- The invariant of a poller that waits in `select`, for a property `P` of caches: the cache
and every cache of the unlock log have `P`, and the channel is open. -/
def PollerInv (P : List PriceDatum → Prop) (st : Poller) : Prop :=
  (∀ snap ∈ st.unlocks, P snap) ∧ P st.priceData ∧
    st.closed = false ∧ st.channelNil = false

/-- The invariant of a goroutine: every cache of the unlock log has `P`, and `PollerInv` while it
polls. -/
def Inv (P : List PriceDatum → Prop) (ps : PollerState) : Prop :=
  (∀ snap ∈ ps.state.unlocks, P snap) ∧ ∀ st, ps = .polling st → PollerInv P st

/-! ## The loop over an incremental response -/

theorem index_ofNat {α : Type} (s : List α) (m : Nat) : index s (m : Int) = s[m]? := by
  simp [index]

theorem index_neg {α : Type} (s : List α) (i : Int) (h : i < 0) : index s i = none := by
  simp [index, not_le.mpr h]

theorem send_open (st : Poller) (d : PriceDatum) (hc : st.closed = false)
    (hn : st.channelNil = false) (hroom : st.pending < channelCapacity) :
    send st d = .polling { st with sent := st.sent ++ [d], pending := st.pending + 1 } := by
  simp [send, hc, hn, not_le.mpr hroom]

/-- A send goes through, blocks, or panics on the closed channel. -/
theorem send_cases (st : Poller) (d : PriceDatum) :
    send st d = .polling { st with sent := st.sent ++ [d], pending := st.pending + 1 } ∨
    send st d = .blocked st ∨ send st d = .panicked .sendOnClosedChannel st := by
  unfold send
  by_cases hn : st.channelNil = true
  · simp [hn]
  · by_cases hc : st.closed = true
    · simp [hn, hc]
    · by_cases hfull : channelCapacity ≤ st.pending
      · simp [hn, hc, hfull]
      · simp [hn, hc, hfull]

theorem positionalDedup_nil_right (w : List PriceDatum) : positionalDedup w [] = [] := by
  simp [positionalDedup]

theorem positionalDedup_cons_eq (c d : PriceDatum) (w data : List PriceDatum)
    (h : c.eq d = true) : positionalDedup (c :: w) (d :: data) = positionalDedup w data := by
  simp [positionalDedup, h]

theorem positionalDedup_cons_ne (c d : PriceDatum) (w data : List PriceDatum)
    (h : ¬ c.eq d = true) :
    positionalDedup (c :: w) (d :: data) = d :: positionalDedup w data := by
  simp [positionalDedup, h]

/-- With an open channel, all prices parsing, every compared position inside the cache and room
in the buffer for what is sent, the loop runs through, leaves everything but the channel as it
was, and sends the positional dedup of the converted entries against the cache from position
`m = len(cache) - k + i` on. -/
theorem pollLoop_inRange (lib : Lib) (k : Nat) (rest : List SpotPrice) :
    ∀ (i m : Nat) (st : Poller), st.closed = false → st.channelNil = false →
      m + k = st.priceData.length + i → m + rest.length ≤ st.priceData.length →
      (∀ sp ∈ rest, (toDatum lib sp).isSome = true) →
      st.pending +
        (positionalDedup (st.priceData.drop m) (rest.filterMap (toDatum lib))).length
          ≤ channelCapacity →
      pollLoop lib k i rest st =
        .polling { st with
          sent := st.sent ++ positionalDedup (st.priceData.drop m) (rest.filterMap (toDatum lib))
          pending := st.pending +
            (positionalDedup (st.priceData.drop m) (rest.filterMap (toDatum lib))).length } := by
  induction rest with
  | nil =>
    intro i m st _ _ _ _ _ _
    simp [pollLoop, positionalDedup_nil_right]
  | cons sp rest ih =>
    intro i m st hc hn hm hlen hparse hroom
    obtain ⟨d, hd⟩ := Option.isSome_iff_exists.mp (hparse sp (List.mem_cons_self _ _))
    have hrest : ∀ sp' ∈ rest, (toDatum lib sp').isSome = true :=
      fun sp' h => hparse sp' (List.mem_cons_of_mem _ h)
    have hidx : (st.priceData.length : Int) - (k : Int) + (i : Int) = (m : Int) := by omega
    have hmlt : m < st.priceData.length := by
      simp only [List.length_cons] at hlen
      omega
    have hget : st.priceData[m]? = some (st.priceData[m]) := List.getElem?_eq_getElem hmlt
    have hdrop : st.priceData.drop m = st.priceData[m] :: st.priceData.drop (m + 1) :=
      List.drop_eq_getElem_cons hmlt
    have hlen1 : (m + 1) + rest.length ≤ st.priceData.length := by
      simp only [List.length_cons] at hlen
      omega
    have hfm : (sp :: rest).filterMap (toDatum lib) = d :: rest.filterMap (toDatum lib) := by
      simp only [List.filterMap_cons, hd]
    rw [pollLoop, hd]
    simp only [hidx, index_ofNat, hget]
    rw [hfm, hdrop] at hroom ⊢
    by_cases heq : (st.priceData[m]).eq d = true
    · rw [positionalDedup_cons_eq _ _ _ _ heq] at hroom ⊢
      simp only [heq, if_true]
      exact ih (i + 1) (m + 1) st hc hn (by omega) hlen1 hrest hroom
    · rw [positionalDedup_cons_ne _ _ _ _ heq] at hroom ⊢
      simp only [List.length_cons] at hroom ⊢
      simp only [heq, Bool.false_eq_true, if_false]
      rw [send_open st d hc hn (by omega)]
      simp only [List.append_nil]
      rw [ih (i + 1) (m + 1) { st with sent := st.sent ++ [d], pending := st.pending + 1 } hc hn
        (by simp only []; omega) hlen1 hrest (by simp only []; omega)]
      simp only [List.append_assoc, List.singleton_append, PollerState.polling.injEq,
        Poller.mk.injEq, true_and, and_true]
      omega

/-- Whatever the loop over an incremental response runs into, it leaves the cache, the unlock
log, the request log and the channel flags as they were. -/
theorem pollLoop_state (lib : Lib) (k : Nat) (rest : List SpotPrice) :
    ∀ (i : Nat) (st : Poller),
      (pollLoop lib k i rest st).state.priceData = st.priceData ∧
      (pollLoop lib k i rest st).state.unlocks = st.unlocks ∧
      (pollLoop lib k i rest st).state.queries = st.queries ∧
      (pollLoop lib k i rest st).state.closed = st.closed ∧
      (pollLoop lib k i rest st).state.channelNil = st.channelNil := by
  induction rest with
  | nil => intro i st; simp [pollLoop, PollerState.state]
  | cons sp rest ih =>
    intro i st
    rw [pollLoop]
    cases hd : toDatum lib sp with
    | none => simp [PollerState.state]
    | some d =>
      simp only []
      cases hi : index st.priceData ((st.priceData.length : Int) - (k : Int) + (i : Int)) with
      | none => simp [PollerState.state]
      | some c =>
        simp only []
        by_cases heq : c.eq d = true
        · simp only [heq, if_true]
          exact ih (i + 1) st
        · simp only [heq, Bool.false_eq_true, if_false]
          rcases send_cases st d with hs | hs | hs
          · rw [hs]
            simp only [List.append_nil]
            exact ih (i + 1) { st with sent := st.sent ++ [d], pending := st.pending + 1 }
          · rw [hs]; simp [PollerState.state]
          · rw [hs]; simp [PollerState.state]

/-- The loop over an incremental response ends in `polling`, `panicked` or `blocked`. -/
theorem pollLoop_cases (lib : Lib) (k : Nat) (rest : List SpotPrice) :
    ∀ (i : Nat) (st : Poller),
      (∃ st2, pollLoop lib k i rest st = .polling st2) ∨
      (∃ e st2, pollLoop lib k i rest st = .panicked e st2) ∨
      (∃ st2, pollLoop lib k i rest st = .blocked st2) := by
  induction rest with
  | nil => intro i st; exact Or.inl ⟨st, by simp [pollLoop]⟩
  | cons sp rest ih =>
    intro i st
    rw [pollLoop]
    cases hd : toDatum lib sp with
    | none => exact Or.inr (Or.inl ⟨_, _, rfl⟩)
    | some d =>
      simp only []
      cases hi : index st.priceData ((st.priceData.length : Int) - (k : Int) + (i : Int)) with
      | none => exact Or.inr (Or.inl ⟨_, _, rfl⟩)
      | some c =>
        simp only []
        by_cases heq : c.eq d = true
        · simp only [heq, if_true]
          exact ih (i + 1) st
        · simp only [heq, Bool.false_eq_true, if_false]
          rcases send_cases st d with hs | hs | hs
          · rw [hs]
            simp only [List.append_nil]
            exact ih (i + 1) { st with sent := st.sent ++ [d], pending := st.pending + 1 }
          · rw [hs]; exact Or.inr (Or.inr ⟨_, rfl⟩)
          · rw [hs]; exact Or.inr (Or.inl ⟨_, _, rfl⟩)

/-! ## The bootstrap loop -/

/-- The bootstrap loop touches only `priceData`. -/
theorem bootLoop_state (lib : Lib) (resp : List SpotPrice) :
    ∀ st : Poller,
      (bootLoop lib resp st).state.unlocks = st.unlocks ∧
      (bootLoop lib resp st).state.sent = st.sent ∧
      (bootLoop lib resp st).state.queries = st.queries ∧
      (bootLoop lib resp st).state.closed = st.closed ∧
      (bootLoop lib resp st).state.channelNil = st.channelNil := by
  induction resp with
  | nil => intro st; simp [bootLoop, PollerState.state]
  | cons sp rest ih =>
    intro st
    rw [bootLoop]
    cases hd : toDatum lib sp with
    | none => simp [PollerState.state]
    | some d => exact ih { st with priceData := st.priceData ++ [d] }

/-- The bootstrap loop ends in `polling` or `panicked`. -/
theorem bootLoop_cases (lib : Lib) (resp : List SpotPrice) :
    ∀ st : Poller,
      (∃ st2, bootLoop lib resp st = .polling st2) ∨
      (∃ e st2, bootLoop lib resp st = .panicked e st2) := by
  induction resp with
  | nil => intro st; exact Or.inl ⟨st, by simp [bootLoop]⟩
  | cons sp rest ih =>
    intro st
    rw [bootLoop]
    cases hd : toDatum lib sp with
    | none => exact Or.inr ⟨_, _, rfl⟩
    | some d => exact ih _

/-- When every price parses, the bootstrap loop appends the converted entries, in response
order. -/
theorem bootLoop_ok (lib : Lib) (resp : List SpotPrice) :
    ∀ st : Poller, (∀ sp ∈ resp, (toDatum lib sp).isSome = true) →
      bootLoop lib resp st =
        .polling { st with priceData := st.priceData ++ resp.filterMap (toDatum lib) } := by
  induction resp with
  | nil => intro st _; simp [bootLoop]
  | cons sp rest ih =>
    intro st hparse
    obtain ⟨d, hd⟩ := Option.isSome_iff_exists.mp (hparse sp (List.mem_cons_self _ _))
    rw [bootLoop, hd]
    simp only []
    rw [ih _ (fun sp' h => hparse sp' (List.mem_cons_of_mem _ h))]
    simp [hd]

/-! ## Invariant of a run -/

theorem pollCycle_inv (P : List PriceDatum → Prop) (lib : Lib) (cli : Client) (st : Poller)
    (h : PollerInv P st) : Inv P (pollCycle lib cli st) := by
  obtain ⟨hu, hs, hc, hn⟩ := h
  unfold pollCycle
  simp only []
  cases hi : index st.priceData ((st.priceData.length : Int) - 1) with
  | none => exact ⟨by simpa [PollerState.state] using hu, by intro st' h'; cases h'⟩
  | some last =>
    simp only []
    cases hq : cli { st.requestParameters with
        StartTime := some (last.Timestamp.Add (Millisecond * 5)) } with
    | error err => exact ⟨by simpa [PollerState.state] using hu, by intro st' h'; cases h'⟩
    | ok resp =>
      simp only []
      generalize hst1 : ({ st with
        requestParameters := { st.requestParameters with
          StartTime := some (last.Timestamp.Add (Millisecond * 5)) }
        queries := st.queries ++ [{ st.requestParameters with
          StartTime := some (last.Timestamp.Add (Millisecond * 5)) }] } : Poller) = st1
      have h1 : st1.priceData = st.priceData ∧ st1.unlocks = st.unlocks ∧
          st1.closed = st.closed ∧ st1.channelNil = st.channelNil := by
        subst hst1; exact ⟨rfl, rfl, rfl, rfl⟩
      obtain ⟨hp, hul, _, hcl, hnl⟩ := pollLoop_state lib resp.length resp 0 st1
      rcases pollLoop_cases lib resp.length resp 0 st1 with ⟨st2, h2⟩ | ⟨e, st2, h2⟩ | ⟨st2, h2⟩
      · rw [h2] at hp hul hcl hnl ⊢
        simp only [PollerState.state] at hp hul hcl hnl
        have hs2 : P st2.priceData := by rw [hp, h1.1]; exact hs
        have hu2 : ∀ snap ∈ st2.unlocks ++ [st2.priceData], P snap := by
          intro snap hmem
          rcases List.mem_append.mp hmem with hm | hm
          · rw [hul, h1.2.1] at hm; exact hu snap hm
          · rw [List.mem_singleton.mp hm]; exact hs2
        refine ⟨by simpa [PollerState.state] using hu2, ?_⟩
        intro st' h'
        cases h'
        exact ⟨hu2, hs2, by rw [hcl, h1.2.2.1]; exact hc, by rw [hnl, h1.2.2.2]; exact hn⟩
      · rw [h2] at hul ⊢
        simp only [PollerState.state] at hul
        exact ⟨by simpa [PollerState.state, hul, h1.2.1] using hu, by intro st' h'; cases h'⟩
      · rw [h2] at hul ⊢
        simp only [PollerState.state] at hul
        exact ⟨by simpa [PollerState.state, hul, h1.2.1] using hu, by intro st' h'; cases h'⟩

theorem checkExit_inv (P : List PriceDatum → Prop) (ps : PollerState) (h : Inv P ps) :
    Inv P (checkExit ps) := by
  cases ps with
  | polling st =>
    unfold checkExit
    by_cases hn : st.channelNil = true
    · simp only [hn, if_true]
      exact ⟨by simpa [PollerState.state] using h.1, by intro st' h'; cases h'⟩
    · simpa [hn] using h
  | bootstrapping st => simpa [checkExit] using h
  | terminated st => simpa [checkExit] using h
  | panicked e st => simpa [checkExit] using h
  | blocked st => simpa [checkExit] using h

theorem loopIter_inv (P : List PriceDatum → Prop) (lib : Lib) (ev : Event) (st : Poller)
    (h : PollerInv P st) : Inv P (loopIter lib ev st) := by
  cases ev with
  | done =>
    obtain ⟨hu, _, hc, hn⟩ := h
    simp only [loopIter, closeChannel, hc, hn, Bool.false_eq_true, if_false, checkExit, if_true]
    exact ⟨by simpa [PollerState.state] using hu, by intro st' h'; cases h'⟩
  | timeout cli => exact checkExit_inv P _ (pollCycle_inv P lib cli st h)
  | receive =>
    obtain ⟨hu, hs, hc, hn⟩ := h
    refine ⟨by simpa [loopIter, PollerState.state] using hu, ?_⟩
    intro st2 h2
    simp only [loopIter, PollerState.polling.injEq] at h2
    subst h2
    exact ⟨hu, hs, hc, hn⟩

theorem runLoop_inv (P : List PriceDatum → Prop) (lib : Lib) (events : List Event) :
    ∀ ps : PollerState, Inv P ps → Inv P (runLoop lib events ps) := by
  induction events with
  | nil => intro ps h; cases ps <;> simpa [runLoop] using h
  | cons ev rest ih =>
    intro ps h
    cases ps with
    | polling st =>
      rw [runLoop]
      exact ih _ (loopIter_inv P lib ev st (h.2 st rfl))
    | bootstrapping st => simpa [runLoop] using h
    | terminated st => simpa [runLoop] using h
    | panicked e st => simpa [runLoop] using h
    | blocked st => simpa [runLoop] using h

theorem bootstrap_inv (P : List PriceDatum → Prop) (lib : Lib) (hP : ∀ l, P (lib.sortSort l))
    (cli : Client) (st : Poller) (hu : ∀ snap ∈ st.unlocks, P snap) (hc : st.closed = false)
    (hn : st.channelNil = false) : Inv P (bootstrap lib cli st) := by
  unfold bootstrap
  simp only []
  generalize hreq : ({ InstanceTypes := [st.policy.InstanceType]
                       ProductDescriptions := [st.policy.ProductDescription]
                       AvailabilityZone := some st.policy.AvailabilityZone
                       StartTime := none } : Request) = req
  cases hq : cli req with
  | error err => exact ⟨by simpa [PollerState.state] using hu, by intro st' h'; cases h'⟩
  | ok resp =>
    simp only []
    generalize hst1 : ({ st with requestParameters := req,
                                 queries := st.queries ++ [req] } : Poller) = st1
    have h1 : st1.unlocks = st.unlocks ∧ st1.closed = st.closed ∧
        st1.channelNil = st.channelNil := by
      subst hst1; exact ⟨rfl, rfl, rfl⟩
    obtain ⟨hul, _, _, hcl, hnl⟩ := bootLoop_state lib resp st1
    rcases bootLoop_cases lib resp st1 with ⟨st2, h2⟩ | ⟨e, st2, h2⟩
    · rw [h2] at hul hcl hnl ⊢
      simp only [PollerState.state] at hul hcl hnl
      have hs2 : P (lib.sortSort st2.priceData) := hP st2.priceData
      have hu2 : ∀ snap ∈ st2.unlocks ++ [lib.sortSort st2.priceData], P snap := by
        intro snap hmem
        rcases List.mem_append.mp hmem with hm | hm
        · rw [hul, h1.1] at hm; exact hu snap hm
        · rw [List.mem_singleton.mp hm]; exact hs2
      refine ⟨by simpa [PollerState.state] using hu2, ?_⟩
      intro st' h'
      cases h'
      exact ⟨hu2, hs2, by rw [hcl, h1.2.1]; exact hc, by rw [hnl, h1.2.2]; exact hn⟩
    · rw [h2] at hul ⊢
      simp only [PollerState.state] at hul
      exact ⟨by simpa [PollerState.state, hul, h1.1] using hu, by intro st' h'; cases h'⟩

theorem monitorPolicy_inv (P : List PriceDatum → Prop) (lib : Lib)
    (hP : ∀ l, P (lib.sortSort l)) (cli : Client) (events : List Event) (p : Policy) :
    Inv P (monitorPolicy lib cli events (newPoller p)) :=
  runLoop_inv P lib events _
    (bootstrap_inv P lib hP cli (newPoller p) (by simp [newPoller]) rfl rfl)

/-! ## One poll cycle -/

theorem index_last {α : Type} (s : List α) (h : s ≠ []) :
    ∃ last, index s ((s.length : Int) - 1) = some last := by
  have hpos : 0 < s.length := List.length_pos.mpr h
  have hcast : (s.length : Int) - 1 = ((s.length - 1 : Nat) : Int) := by omega
  rw [hcast, index_ofNat]
  exact ⟨s[s.length - 1], List.getElem?_eq_getElem (by omega)⟩

/-- A poll cycle on a non-empty cache, with an open channel, a response no longer than the cache,
prices that all parse and room in the buffer: it completes, issues one request, sends the
positional dedup of the response against the trailing window of the cache, and leaves the cache
as it was. -/
theorem pollCycle_inRange (lib : Lib) (st : Poller) (resp : List SpotPrice)
    (hc : st.closed = false) (hn : st.channelNil = false) (hne : st.priceData ≠ [])
    (hkn : resp.length ≤ st.priceData.length)
    (hparse : ∀ sp ∈ resp, (toDatum lib sp).isSome = true)
    (hroom : st.pending +
      (positionalDedup (st.priceData.drop (st.priceData.length - resp.length))
        (resp.filterMap (toDatum lib))).length ≤ channelCapacity) :
    ∃ req, pollCycle lib (respond resp) st =
      .polling { st with
        requestParameters := req
        queries := st.queries ++ [req]
        sent := st.sent ++ positionalDedup
          (st.priceData.drop (st.priceData.length - resp.length)) (resp.filterMap (toDatum lib))
        pending := st.pending +
          (positionalDedup (st.priceData.drop (st.priceData.length - resp.length))
            (resp.filterMap (toDatum lib))).length
        unlocks := st.unlocks ++ [st.priceData] } := by
  obtain ⟨last, hlast⟩ := index_last st.priceData hne
  refine ⟨{ st.requestParameters with StartTime := some (last.Timestamp.Add (Millisecond * 5)) }, ?_⟩
  unfold pollCycle
  simp only [hlast, respond]
  have key := pollLoop_inRange lib resp.length resp 0 (st.priceData.length - resp.length)
    { st with
      requestParameters :=
        { st.requestParameters with StartTime := some (last.Timestamp.Add (Millisecond * 5)) }
      queries := st.queries ++
        [{ st.requestParameters with StartTime := some (last.Timestamp.Add (Millisecond * 5)) }] }
    hc hn (by simp only []; omega) (by simp only []; omega) hparse hroom
  rw [key]

/-- The entries the poller builds from a response whose prices parse to `prices`: lines 102-106
and 126-130 copy four fields and store the parsed price. -/
theorem toDatum_of_prices (lib : Lib) (resp : List SpotPrice) :
    ∀ prices : List Float64,
      resp.map (fun sp => lib.ParseFloat sp.SpotPrice) = prices.map some →
      (∀ sp ∈ resp, (toDatum lib sp).isSome = true) ∧
      resp.filterMap (toDatum lib) =
        List.zipWith (fun sp price => (⟨sp.AvailabilityZone, sp.InstanceType,
          sp.ProductDescription, price, sp.Timestamp⟩ : PriceDatum)) resp prices := by
  induction resp with
  | nil =>
    intro prices h
    cases prices with
    | nil => simp
    | cons price rest => simp at h
  | cons sp rest ih =>
    intro prices h
    cases prices with
    | nil => simp at h
    | cons price more =>
      simp only [List.map_cons, List.cons.injEq] at h
      obtain ⟨h1, h2⟩ := ih more h.2
      have hd : toDatum lib sp = some ⟨sp.AvailabilityZone, sp.InstanceType,
          sp.ProductDescription, price, sp.Timestamp⟩ := by
        simp [toDatum, h.1]
      refine ⟨?_, ?_⟩
      · intro sp' hmem
        rcases List.mem_cons.mp hmem with rfl | hmem
        · simp [hd]
        · exact h1 sp' hmem
      · simp only [List.filterMap_cons, hd, List.zipWith_cons_cons, h2]

theorem positionalDedup_length_le (w data : List PriceDatum) :
    (positionalDedup w data).length ≤ data.length := by
  unfold positionalDedup
  rw [List.length_map]
  exact le_trans (List.length_filter_le _ _) (by simp [List.length_zip])

/-- A poll cycle on an empty cache panics at line 119, before any request is issued. -/
theorem pollCycle_empty (lib : Lib) (cli : Client) (st : Poller) (he : st.priceData = []) :
    pollCycle lib cli st = .panicked (.indexOutOfRange (-1) 0) st := by
  unfold pollCycle
  simp [he, index]

/-- A poll cycle whose response is longer than the non-empty cache panics at line 132 on the
first entry, provided the price of that entry parses: nothing is sent. -/
theorem pollCycle_tooLong (lib : Lib) (st : Poller) (resp : List SpotPrice)
    (hne : st.priceData ≠ []) (hlt : st.priceData.length < resp.length)
    (hparse : ∀ sp, resp.head? = some sp → (toDatum lib sp).isSome = true) :
    ∃ st1, pollCycle lib (respond resp) st =
        .panicked (.indexOutOfRange ((st.priceData.length : Int) - (resp.length : Int))
          st.priceData.length) st1 ∧
      st1.sent = st.sent ∧ st1.priceData = st.priceData := by
  obtain ⟨last, hlast⟩ := index_last st.priceData hne
  cases resp with
  | nil => simp at hlt
  | cons sp rest =>
    obtain ⟨d, hd⟩ := Option.isSome_iff_exists.mp (hparse sp rfl)
    unfold pollCycle
    simp only [hlast, respond]
    rw [pollLoop, hd]
    have hneg : (st.priceData.length : Int) - ((sp :: rest).length : Int) + ((0 : Nat) : Int) < 0 := by
      omega
    simp only [index_neg _ _ hneg]
    refine ⟨{ st with
      requestParameters :=
        { st.requestParameters with StartTime := some (last.Timestamp.Add (Millisecond * 5)) }
      queries := st.queries ++
        [{ st.requestParameters with StartTime := some (last.Timestamp.Add (Millisecond * 5)) }] },
      ?_, rfl, rfl⟩
    simp

/-- While every compared position is inside the cache, the loop over an incremental response
never panics on an index, whether or not the prices parse and the channel is open. -/
theorem pollLoop_noIndexPanic (lib : Lib) (k : Nat) (rest : List SpotPrice) :
    ∀ (i m : Nat) (st : Poller),
      m + k = st.priceData.length + i → m + rest.length ≤ st.priceData.length →
      ∀ idx len st2, pollLoop lib k i rest st ≠ .panicked (.indexOutOfRange idx len) st2 := by
  induction rest with
  | nil =>
    intro i m st _ _ idx len st2 h
    simp [pollLoop] at h
  | cons sp rest ih =>
    intro i m st hm hlen idx len st2
    simp only [List.length_cons] at hlen
    have hidx : (st.priceData.length : Int) - (k : Int) + (i : Int) = (m : Int) := by omega
    have hget : st.priceData[m]? = some (st.priceData[m]) :=
      List.getElem?_eq_getElem (by omega)
    rw [pollLoop]
    cases hd : toDatum lib sp with
    | none => simp
    | some d =>
      simp only [hidx, index_ofNat, hget]
      by_cases heq : (st.priceData[m]).eq d = true
      · simp only [heq, if_true]
        exact ih (i + 1) (m + 1) st (by omega) (by omega) idx len st2
      · simp only [heq, Bool.false_eq_true, if_false]
        rcases send_cases st d with hs | hs | hs
        · rw [hs]
          simp only [List.append_nil]
          exact ih (i + 1) (m + 1) { st with sent := st.sent ++ [d], pending := st.pending + 1 }
            (by simp only []; omega) (by simp only []; omega) idx len st2
        · rw [hs]; simp
        · rw [hs]; simp

/-- A poll cycle on a non-empty cache with a response no longer than the cache never panics on
an index. -/
theorem pollCycle_noIndexPanic (lib : Lib) (st : Poller) (resp : List SpotPrice)
    (hne : st.priceData ≠ []) (hkn : resp.length ≤ st.priceData.length) :
    ∀ idx len st2,
      pollCycle lib (respond resp) st ≠ .panicked (.indexOutOfRange idx len) st2 := by
  obtain ⟨last, hlast⟩ := index_last st.priceData hne
  intro idx len st2
  unfold pollCycle
  simp only [hlast, respond]
  have key := pollLoop_noIndexPanic lib resp.length resp 0 (st.priceData.length - resp.length)
    { st with
      requestParameters :=
        { st.requestParameters with StartTime := some (last.Timestamp.Add (Millisecond * 5)) }
      queries := st.queries ++
        [{ st.requestParameters with StartTime := some (last.Timestamp.Add (Millisecond * 5)) }] }
    (by simp only []; omega) (by simp only []; omega) idx len
  rcases pollLoop_cases lib resp.length resp 0
    { st with
      requestParameters :=
        { st.requestParameters with StartTime := some (last.Timestamp.Add (Millisecond * 5)) }
      queries := st.queries ++
        [{ st.requestParameters with StartTime := some (last.Timestamp.Add (Millisecond * 5)) }] }
    with ⟨s2, h2⟩ | ⟨e, s2, h2⟩ | ⟨s2, h2⟩
  · rw [h2]; simp
  · rw [h2] at key ⊢
    simpa using key st2
  · rw [h2]; simp

/-- A poll cycle whose response is longer than the cache does not complete. -/
theorem pollCycle_tooLong_stops (lib : Lib) (st : Poller) (resp : List SpotPrice)
    (hlt : st.priceData.length < resp.length) :
    ∀ st2, pollCycle lib (respond resp) st ≠ .polling st2 := by
  intro st2
  by_cases hne : st.priceData = []
  · rw [pollCycle_empty lib (respond resp) st hne]; simp
  · obtain ⟨last, hlast⟩ := index_last st.priceData hne
    cases resp with
    | nil => simp at hlt
    | cons sp rest =>
      unfold pollCycle
      simp only [hlast, respond]
      rw [pollLoop]
      have hneg : (st.priceData.length : Int) - ((sp :: rest).length : Int) + ((0 : Nat) : Int)
          < 0 := by omega
      cases hd : toDatum lib sp with
      | none => simp
      | some d => simp only [index_neg _ _ hneg]; simp

/-! ## The sample library meets the contract of `sort.Sort` -/

theorem sampleLib_sortContract : SortContract sampleLib := by
  intro l
  haveI : IsTotal PriceDatum (fun a b => byTimestamp.Less b a = false) :=
    ⟨fun a b => by
      simp only [byTimestamp.Less, Time.Before, decide_eq_false_iff_not, not_lt]
      exact le_total _ _⟩
  haveI : IsTrans PriceDatum (fun a b => byTimestamp.Less b a = false) :=
    ⟨fun a b c hab hbc => by
      simp only [byTimestamp.Less, Time.Before, decide_eq_false_iff_not, not_lt] at hab hbc ⊢
      exact le_trans hab hbc⟩
  exact ⟨List.perm_insertionSort _ l, List.sorted_insertionSort _ l⟩

/-! ## Claims -/

/-- C1 (the code differs). Bootstrap returns one point of instant 10; the next poll returns one
other point of instant 20. The cycle completes and sends that point, but the cache is still the
bootstrap cache: the accepted point was not appended. -/
theorem C1_accepted_entry_not_appended :
    (∃ st, monitorPolicy sampleLib (respond [entry "0.5" 10])
        [.timeout (respond [entry "0.25" 20])] (newPoller samplePolicy) = .polling st ∧
      st.sent = [datum 0x3FD0000000000000 20] ∧
      st.priceData = [datum 0x3FE0000000000000 10]) ∧
    [datum 0x3FE0000000000000 10] ≠
      [datum 0x3FE0000000000000 10] ++ [datum 0x3FD0000000000000 20] :=
  ⟨⟨_, rfl, rfl, rfl⟩, by decide⟩

/-- C2 (the code differs). Bootstrap returns one point; the next poll returns that point unchanged
followed by a new, later one. The cycle does not complete: it panics on the first entry with the
index `-1` out of range, nothing was sent and the cache is the bootstrap cache. -/
theorem C2_same_points_plus_one_panics :
    ∃ st, monitorPolicy sampleLib (respond [entry "0.5" 10])
        [.timeout (respond [entry "0.5" 10, entry "0.25" 20])] (newPoller samplePolicy) =
        .panicked (.indexOutOfRange (-1) 1) st ∧
      st.sent = [] ∧ st.priceData = [datum 0x3FE0000000000000 10] :=
  ⟨_, rfl, rfl, rfl⟩

/-- C3 (the code differs). Bootstrap returns one point; two poll cycles in a row return the same
new point. It is sent in the first cycle and sent again in the second, and the two values sent
are equal under Go `==`. -/
theorem C3_new_point_sent_twice :
    (monitorPolicy sampleLib (respond [entry "0.5" 10])
        [.timeout (respond [entry "0.25" 20]), .timeout (respond [entry "0.25" 20])]
        (newPoller samplePolicy)).state.sent =
      [datum 0x3FD0000000000000 20, datum 0x3FD0000000000000 20] ∧
    (datum 0x3FD0000000000000 20).eq (datum 0x3FD0000000000000 20) = true :=
  ⟨rfl, by decide⟩

/-- C4. For every library whose sort meets the contract of `sort.Sort`, every bootstrap client,
every sequence of loop events and every policy: each cache logged when `monitorPolicy` releases
the cache lock has, in every adjacent pair, a first timestamp that is not after the second; and
so has the cache of a poller that waits in `select`. -/
theorem C4_cache_sorted_at_every_unlock (lib : Lib) (hsort : SortContract lib) (cli : Client)
    (events : List Event) (p : Policy) :
    (∀ snap ∈ (monitorPolicy lib cli events (newPoller p)).state.unlocks,
      snap.Chain' (fun first second => second.Timestamp.Before first.Timestamp = false)) ∧
    (∀ st, monitorPolicy lib cli events (newPoller p) = .polling st →
      st.priceData.Chain' (fun first second => second.Timestamp.Before first.Timestamp = false)) := by
  have hinv := monitorPolicy_inv Sorted lib (fun l => (hsort l).2) cli events p
  refine ⟨fun snap hmem => ?_, fun st hst => ?_⟩
  · exact List.Pairwise.chain' (hinv.1 snap hmem)
  · exact List.Pairwise.chain' (hinv.2 st hst).2.1

/-- Witness of C4: a bootstrap that returns two points out of order, then a poll cycle. -/
theorem C4_cache_sorted_at_every_unlock_witness :
    SortContract sampleLib ∧
    (monitorPolicy sampleLib (respond [entry "0.5" 20, entry "0.5" 10])
      [.timeout (respond [entry "0.25" 30])] (newPoller samplePolicy)).state.unlocks.length = 2 ∧
    ∀ snap ∈ (monitorPolicy sampleLib (respond [entry "0.5" 20, entry "0.5" 10])
      [.timeout (respond [entry "0.25" 30])] (newPoller samplePolicy)).state.unlocks,
      snap.Chain' (fun first second => second.Timestamp.Before first.Timestamp = false) :=
  ⟨sampleLib_sortContract, rfl,
    (C4_cache_sorted_at_every_unlock sampleLib sampleLib_sortContract
      (respond [entry "0.5" 20, entry "0.5" 10]) [.timeout (respond [entry "0.25" 30])]
      samplePolicy).1⟩

/-- C5. For every library whose sort meets the contract of `sort.Sort`, every policy and every
bootstrap response whose prices parse, to the values `prices`: with no loop event,
`monitorPolicy` ends waiting in `select`, nothing was sent, and the cache is a permutation of the
converted entries (for each returned entry the datum with its zone, instance type, product
description and timestamp and with its parsed price), one per returned entry, in ascending
timestamp order. -/
theorem C5_bootstrap_only (lib : Lib) (hsort : SortContract lib) (p : Policy)
    (resp : List SpotPrice) (prices : List Float64)
    (hparse : resp.map (fun sp => lib.ParseFloat sp.SpotPrice) = prices.map some) :
    ∃ st, monitorPolicy lib (respond resp) [] (newPoller p) = .polling st ∧
      st.sent = [] ∧
      st.priceData.Perm
        (List.zipWith (fun sp price => (⟨sp.AvailabilityZone, sp.InstanceType,
          sp.ProductDescription, price, sp.Timestamp⟩ : PriceDatum)) resp prices) ∧
      st.priceData.length = resp.length ∧
      st.priceData.Pairwise (fun a b => b.Timestamp.Before a.Timestamp = false) := by
  obtain ⟨hsome, hconv⟩ := toDatum_of_prices lib resp prices hparse
  have hlen : prices.length = resp.length := by
    have := congrArg List.length hparse
    simpa using this.symm
  have hrun : monitorPolicy lib (respond resp) [] (newPoller p) =
      .polling
        { policy := p
          priceData := lib.sortSort (resp.filterMap (toDatum lib))
          sent := []
          pending := 0
          closed := false
          channelNil := false
          requestParameters :=
            ⟨[p.InstanceType], [p.ProductDescription], some p.AvailabilityZone, none⟩
          queries := [⟨[p.InstanceType], [p.ProductDescription], some p.AvailabilityZone, none⟩]
          unlocks := [lib.sortSort (resp.filterMap (toDatum lib))] } := by
    simp only [monitorPolicy, bootstrap, respond, newPoller, List.nil_append]
    rw [bootLoop_ok lib resp _ hsome]
    simp only [runLoop, List.nil_append]
  refine ⟨_, hrun, rfl, ?_, ?_, (hsort _).2⟩
  · rw [← hconv]
    exact (hsort _).1
  · show (lib.sortSort (resp.filterMap (toDatum lib))).length = resp.length
    rw [(hsort _).1.length_eq, hconv, List.length_zipWith, hlen, min_self]

/-- Witness of C5: a bootstrap response of three entries, out of order, with three different
prices; the cache is the three converted entries by ascending timestamp. -/
theorem C5_bootstrap_only_witness :
    (monitorPolicy sampleLib (respond [entry "0.5" 20, entry "1" 30, entry "0.25" 10]) []
        (newPoller samplePolicy)).state.priceData =
      [datum 0x3FD0000000000000 10, datum 0x3FE0000000000000 20,
        datum 0x3FF0000000000000 30] ∧
    ∃ st, monitorPolicy sampleLib (respond [entry "0.5" 20, entry "1" 30, entry "0.25" 10]) []
        (newPoller samplePolicy) = .polling st ∧
      st.sent = [] ∧
      st.priceData.Perm
        [datum 0x3FE0000000000000 20, datum 0x3FF0000000000000 30,
          datum 0x3FD0000000000000 10] ∧
      st.priceData.length = 3 ∧
      st.priceData.Pairwise (fun a b => b.Timestamp.Before a.Timestamp = false) :=
  ⟨rfl, C5_bootstrap_only sampleLib sampleLib_sortContract samplePolicy
    [entry "0.5" 20, entry "1" 30, entry "0.25" 10]
    [⟨0x3FE0000000000000⟩, ⟨0x3FF0000000000000⟩, ⟨0x3FD0000000000000⟩] rfl⟩

/-- C6, the claim as stated fails: against a cache of two points, a response of two entries whose
second price does not parse. The first entry differs from its cache entry and is sent; then the
cycle panics at line 128: the second entry is neither equal to its cache entry nor sent. -/
theorem C6_unparsed_price_counterexample :
    ∃ st, monitorPolicy sampleLib (respond [entry "0.5" 10, entry "0.5" 20])
        [.timeout (respond [entry "0.25" 30, entry "abc" 40])] (newPoller samplePolicy) =
        .panicked (.parseErr "abc") st ∧
      st.sent = [datum 0x3FD0000000000000 30] ∧
      st.priceData = [datum 0x3FE0000000000000 10, datum 0x3FE0000000000000 20] :=
  ⟨_, rfl, rfl, rfl⟩

/-- C6, amended. For every poller with an open channel, cache of length `n` and response of
length `k` with `1 ≤ k ≤ n` whose prices parse, to the values `prices`, and with room in the
buffer for what is sent: the poll cycle completes, and what it sends is, in response order, the
converted entries that differ under Go `==` from the cache entry at the same position of the
trailing window, the entry at position `i` being laid against the cache entry at position
`n - k + i`; an entry equal to that cache entry is dropped. Go `==` holds when the three strings
and the timestamp are equal and the prices are equal as `float64`: neither is a NaN, and the bit
patterns are the same or both are a zero. -/
theorem C6_positional_dedup (lib : Lib) (st : Poller) (resp : List SpotPrice)
    (prices : List Float64)
    (hc : st.closed = false) (hn : st.channelNil = false) (hk : 1 ≤ resp.length)
    (hkn : resp.length ≤ st.priceData.length)
    (hparse : resp.map (fun sp => lib.ParseFloat sp.SpotPrice) = prices.map some)
    (hroom : st.pending +
      ((((st.priceData.drop (st.priceData.length - resp.length)).zip
          (List.zipWith (fun sp price => (⟨sp.AvailabilityZone, sp.InstanceType,
            sp.ProductDescription, price, sp.Timestamp⟩ : PriceDatum)) resp prices)).filter
        (fun cd => !cd.1.eq cd.2)).map Prod.snd).length ≤ 1000) :
    (∃ st2, pollCycle lib (respond resp) st = .polling st2 ∧
      st2.sent = st.sent ++
        (((st.priceData.drop (st.priceData.length - resp.length)).zip
          (List.zipWith (fun sp price => (⟨sp.AvailabilityZone, sp.InstanceType,
            sp.ProductDescription, price, sp.Timestamp⟩ : PriceDatum)) resp prices)).filter
        (fun cd => !cd.1.eq cd.2)).map Prod.snd) ∧
    (∀ i, i < resp.length →
      (st.priceData.drop (st.priceData.length - resp.length))[i]? =
        st.priceData[st.priceData.length - resp.length + i]?) ∧
    (∀ c d : PriceDatum, c.eq d = true ↔
      (c.AvailabilityZone = d.AvailabilityZone ∧ c.InstanceType = d.InstanceType ∧
        c.ProductDescription = d.ProductDescription ∧ c.Timestamp = d.Timestamp ∧
        ¬ ((c.Price.bits / 2 ^ 52) % 2 ^ 11 = 2047 ∧ c.Price.bits % 2 ^ 52 ≠ 0) ∧
        ¬ ((d.Price.bits / 2 ^ 52) % 2 ^ 11 = 2047 ∧ d.Price.bits % 2 ^ 52 ≠ 0) ∧
        (c.Price.bits % 2 ^ 64 = d.Price.bits % 2 ^ 64 ∨
          (c.Price.bits % 2 ^ 63 = 0 ∧ d.Price.bits % 2 ^ 63 = 0)))) := by
  have hne : st.priceData ≠ [] := by
    intro h
    rw [h] at hkn
    simp only [List.length_nil] at hkn
    omega
  obtain ⟨hsome, hconv⟩ := toDatum_of_prices lib resp prices hparse
  rw [← hconv] at hroom ⊢
  obtain ⟨req, hreq⟩ := pollCycle_inRange lib st resp hc hn hne hkn hsome hroom
  refine ⟨⟨_, hreq, rfl⟩, fun i _ => List.getElem?_drop _ _ _, ?_⟩
  intro c d
  simp only [PriceDatum.eq, Float64.eq, Float64.isNaN, Float64.isZero, Bool.and_eq_true,
    Bool.or_eq_true, Bool.not_eq_true', beq_iff_eq, decide_eq_true_eq, bne_iff_ne, ne_eq,
    Bool.and_eq_false_imp, beq_eq_false_iff_ne, bne_eq_false_iff_eq, not_and, not_not]
  tauto

/-- Witness of C6: a cache of four points and a response of four. The first entry differs from
its cache entry in the zone only, the second in the price only, the third has a NaN price like
its cache entry, the fourth equals its cache entry: the first three are sent, the fourth is
dropped. -/
theorem C6_positional_dedup_witness :
    (∃ st2, pollCycle sampleLib
        (respond [⟨"us-east-1b", "m3.medium", "Linux/UNIX", "0.5", ⟨10, 0⟩⟩, entry "0.25" 20,
          entry "NaN" 30, entry "1" 40])
        { newPoller samplePolicy with
          priceData := [datum 0x3FE0000000000000 10, datum 0x3FE0000000000000 20,
            datum 0x7FF8000000000001 30, datum 0x3FF0000000000000 40] } = .polling st2 ∧
      st2.sent =
        [⟨"us-east-1b", "m3.medium", "Linux/UNIX", ⟨0x3FE0000000000000⟩, ⟨10, 0⟩⟩,
          datum 0x3FD0000000000000 20, datum 0x7FF8000000000001 30]) :=
  (C6_positional_dedup sampleLib
    { newPoller samplePolicy with
      priceData := [datum 0x3FE0000000000000 10, datum 0x3FE0000000000000 20,
        datum 0x7FF8000000000001 30, datum 0x3FF0000000000000 40] }
    [⟨"us-east-1b", "m3.medium", "Linux/UNIX", "0.5", ⟨10, 0⟩⟩, entry "0.25" 20,
      entry "NaN" 30, entry "1" 40]
    [⟨0x3FE0000000000000⟩, ⟨0x3FD0000000000000⟩, ⟨0x7FF8000000000001⟩, ⟨0x3FF0000000000000⟩]
    rfl rfl (by decide) (by decide) rfl (by decide)).1

/-- C7 (the code differs). Bootstrap returns two points; the next poll returns two new points,
the later one first. They are sent in response order: the second value sent has a timestamp
before that of the first. -/
theorem C7_sent_in_response_order :
    (monitorPolicy sampleLib (respond [entry "0.5" 10, entry "0.5" 20])
        [.timeout (respond [entry "0.25" 40, entry "1" 30])] (newPoller samplePolicy)).state.sent =
      [datum 0x3FD0000000000000 40, datum 0x3FF0000000000000 30] ∧
    (datum 0x3FF0000000000000 30).Timestamp.Before (datum 0x3FD0000000000000 40).Timestamp =
      true :=
  ⟨rfl, by decide⟩

/-- C8, the claim as stated fails: on a new monitor, `AddNewPolicy` with a policy whose Region is
the empty string changes the registry and starts a poller. -/
theorem C8_empty_region_counterexample :
    (AddNewPolicy newWorld 7 ⟨"", "us-east-1a", "Linux/UNIX", "m3.medium"⟩).m.policies 7 ≠
      newWorld.m.policies 7 ∧
    (AddNewPolicy newWorld 7 ⟨"", "us-east-1a", "Linux/UNIX", "m3.medium"⟩).goroutines 7 =
      some (.bootstrapping (newPoller ⟨"", "us-east-1a", "Linux/UNIX", "m3.medium"⟩)) := by
  simp [AddNewPolicy, newWorld, NewMonitor]

/-- C8, amended. `AddNewPolicy` does not look at Region: for every monitor and every policy, one
whose Region is the empty string included, it registers the policy with an empty Price Cache,
starts a poller for it with an open channel, and leaves the other policies as they were. -/
theorem C8_AddNewPolicy_registers_any_region (w : World) (ptr : PolicyPtr) (p : Policy) :
    (AddNewPolicy w ptr p).m.policies ptr = some { priceData := [] } ∧
    (AddNewPolicy w ptr p).goroutines ptr = some (.bootstrapping (newPoller p)) ∧
    (newPoller p).closed = false ∧ (newPoller p).channelNil = false ∧
    ∀ q, q ≠ ptr →
      (AddNewPolicy w ptr p).m.policies q = w.m.policies q ∧
      (AddNewPolicy w ptr p).goroutines q = w.goroutines q := by
  refine ⟨by simp [AddNewPolicy], by simp [AddNewPolicy], rfl, rfl, fun q hq => ?_⟩
  simp [AddNewPolicy, Function.update_noteq hq]

theorem runLoop_terminated (lib : Lib) (events : List Event) (st : Poller) :
    runLoop lib events (.terminated st) = .terminated st := by
  cases events <;> rfl

/-- C9. Let the goroutine of policy `ptr` be a run of `monitorPolicy` that finished bootstrap and
waits in `select`. Then `removePolicy` returns; afterwards `ptr` is absent from the registry and
every other registry entry is unchanged; the poller has left its loop with the channel closed
(it was open before, so it is closed once) and `p.channel` nil; it issued no further request
and sent nothing further, and stays so whatever events follow. -/
theorem C9_removePolicy_terminates_poller (lib : Lib) (w : World) (ptr : PolicyPtr)
    (p : Policy) (cli : Client) (events : List Event) (st : Poller)
    (hg : w.goroutines ptr = some (monitorPolicy lib cli events (newPoller p)))
    (hpoll : monitorPolicy lib cli events (newPoller p) = .polling st) :
    ∃ w2 st2, removePolicy lib w ptr = some w2 ∧
      w2.m.policies ptr = none ∧
      (∀ q, q ≠ ptr → w2.m.policies q = w.m.policies q) ∧
      w2.goroutines ptr = some (.terminated st2) ∧
      st.closed = false ∧ st2.closed = true ∧ st2.channelNil = true ∧
      st2.sent = st.sent ∧ st2.queries = st.queries ∧ st2.priceData = st.priceData ∧
      ∀ more, runLoop lib more (.terminated st2) = .terminated st2 := by
  have hinv := monitorPolicy_inv (fun _ => True) lib (fun _ => trivial) cli events p
  obtain ⟨_, _, hc, hn⟩ := hinv.2 st hpoll
  rw [hpoll] at hg
  have hrem : removePolicy lib w ptr =
      some { m := { policies := Function.update w.m.policies ptr none }
             goroutines := Function.update w.goroutines ptr
               (some (.terminated { st with closed := true, channelNil := true })) } := by
    simp [removePolicy, hg, loopIter, closeChannel, checkExit, hc, hn]
  refine ⟨_, { st with closed := true, channelNil := true }, hrem, ?_, ?_, ?_, hc, rfl, rfl,
    rfl, rfl, rfl, fun more => runLoop_terminated lib more _⟩
  · simp
  · intro q hq
    simp [Function.update_noteq hq]
  · simp

/-- Witness of C9: a policy added to a new monitor, its poller after bootstrap and one poll
cycle. -/
theorem C9_removePolicy_terminates_poller_witness :
    ∃ w2 st2,
      removePolicy sampleLib
        { m := (AddNewPolicy newWorld 7 samplePolicy).m
          goroutines := Function.update newWorld.goroutines 7
            (some (monitorPolicy sampleLib (respond [entry "0.5" 10])
              [.timeout (respond [entry "0.25" 20])] (newPoller samplePolicy))) } 7 = some w2 ∧
      w2.m.policies 7 = none ∧
      (∀ q, q ≠ 7 → w2.m.policies q = (AddNewPolicy newWorld 7 samplePolicy).m.policies q) ∧
      w2.goroutines 7 = some (.terminated st2) ∧
      (monitorPolicy sampleLib (respond [entry "0.5" 10])
        [.timeout (respond [entry "0.25" 20])] (newPoller samplePolicy)).state.closed = false ∧
      st2.closed = true ∧ st2.channelNil = true ∧
      st2.sent = [datum 0x3FD0000000000000 20] ∧
      st2.queries = (monitorPolicy sampleLib (respond [entry "0.5" 10])
        [.timeout (respond [entry "0.25" 20])] (newPoller samplePolicy)).state.queries ∧
      st2.priceData = [datum 0x3FE0000000000000 10] ∧
      ∀ more, runLoop sampleLib more (.terminated st2) = .terminated st2 :=
  C9_removePolicy_terminates_poller sampleLib
    { m := (AddNewPolicy newWorld 7 samplePolicy).m
      goroutines := Function.update newWorld.goroutines 7
        (some (monitorPolicy sampleLib (respond [entry "0.5" 10])
          [.timeout (respond [entry "0.25" 20])] (newPoller samplePolicy))) }
    7 samplePolicy (respond [entry "0.5" 10]) [.timeout (respond [entry "0.25" 20])]
    (monitorPolicy sampleLib (respond [entry "0.5" 10])
      [.timeout (respond [entry "0.25" 20])] (newPoller samplePolicy)).state
    (by simp) rfl

/-- C10, the claim as stated fails, in both directions. Against a cache of one point, a response
of one entry whose price does not parse: the cache is non-empty and the response is no longer
than the cache, yet the cycle does not complete (it panics at line 128). And a response of two
entries whose first price does not parse: the response is longer than the cache, yet no index is
out of range (the cycle panics at line 128 before line 132). -/
theorem C10_unparsed_price_counterexample :
    (∃ st, monitorPolicy sampleLib (respond [entry "0.5" 10])
        [.timeout (respond [entry "abc" 10])] (newPoller samplePolicy) =
        .panicked (.parseErr "abc") st ∧
      st.priceData ≠ [] ∧ [entry "abc" 10].length ≤ st.priceData.length) ∧
    (∃ st, monitorPolicy sampleLib (respond [entry "0.5" 10])
        [.timeout (respond [entry "abc" 10, entry "0.25" 20])] (newPoller samplePolicy) =
        .panicked (.parseErr "abc") st ∧
      st.priceData.length < [entry "abc" 10, entry "0.25" 20].length) :=
  ⟨⟨_, rfl, by decide, by decide⟩, ⟨_, rfl, by decide⟩⟩

theorem toDatum_isSome (lib : Lib) (sp : SpotPrice) :
    (toDatum lib sp).isSome = (lib.ParseFloat sp.SpotPrice).isSome := by
  unfold toDatum
  cases lib.ParseFloat sp.SpotPrice <;> rfl

/-- C10, amended. For every poller with an open channel and every incremental response whose
prices all parse, with room in the buffer for the response: the poll cycle completes exactly when
the cache is non-empty and the response has at most as many entries as the cache, and in that
case no index is out of range. With an empty cache it panics on the index `-1` of the start-time
computation; with a non-empty cache of `n` entries and a response of `k > n` entries it panics on
the index `n - k` of the dedup comparison, having sent nothing. -/
theorem C10_poll_cycle_index_safety (lib : Lib) (st : Poller) (resp : List SpotPrice)
    (hc : st.closed = false) (hn : st.channelNil = false)
    (hparse : ∀ sp ∈ resp, (lib.ParseFloat sp.SpotPrice).isSome = true)
    (hroom : st.pending + resp.length ≤ 1000) :
    ((∃ st2, pollCycle lib (respond resp) st = .polling st2) ↔
      (st.priceData ≠ [] ∧ resp.length ≤ st.priceData.length)) ∧
    ((st.priceData ≠ [] ∧ resp.length ≤ st.priceData.length) →
      ∀ idx len st2,
        pollCycle lib (respond resp) st ≠ .panicked (.indexOutOfRange idx len) st2) ∧
    (st.priceData = [] →
      pollCycle lib (respond resp) st = .panicked (.indexOutOfRange (-1) 0) st) ∧
    (st.priceData ≠ [] → st.priceData.length < resp.length →
      ∃ st1, pollCycle lib (respond resp) st =
          .panicked (.indexOutOfRange ((st.priceData.length : Int) - (resp.length : Int))
            st.priceData.length) st1 ∧
        st1.sent = st.sent ∧ st1.priceData = st.priceData) := by
  have hsome : ∀ sp ∈ resp, (toDatum lib sp).isSome = true := by
    intro sp h
    rw [toDatum_isSome]
    exact hparse sp h
  refine ⟨⟨?_, ?_⟩, fun h => pollCycle_noIndexPanic lib st resp h.1 h.2,
    pollCycle_empty lib (respond resp) st,
    fun hne hlt => pollCycle_tooLong lib st resp hne hlt
      (fun sp h => hsome sp (List.mem_of_mem_head? h))⟩
  · rintro ⟨st2, h2⟩
    by_cases hne : st.priceData = []
    · rw [pollCycle_empty lib (respond resp) st hne] at h2
      cases h2
    · refine ⟨hne, ?_⟩
      by_contra hlt
      exact pollCycle_tooLong_stops lib st resp (not_le.mp hlt) st2 h2
  · rintro ⟨hne, hkn⟩
    have hacc := positionalDedup_length_le
      (st.priceData.drop (st.priceData.length - resp.length)) (resp.filterMap (toDatum lib))
    have hfm := List.length_filterMap_le (toDatum lib) resp
    obtain ⟨req, hreq⟩ := pollCycle_inRange lib st resp hc hn hne hkn hsome
      (by unfold channelCapacity; omega)
    exact ⟨_, hreq⟩

/-- Witness of C10: a cache of one point and a response of two, both prices parsing. -/
theorem C10_poll_cycle_index_safety_witness :
    (pollCycle sampleLib (respond [entry "0.5" 10, entry "0.25" 20])
        { newPoller samplePolicy with priceData := [datum 0x3FE0000000000000 10] }).state.sent =
      [] ∧
    ∃ st1, pollCycle sampleLib (respond [entry "0.5" 10, entry "0.25" 20])
        { newPoller samplePolicy with priceData := [datum 0x3FE0000000000000 10] } =
        .panicked (.indexOutOfRange ((1 : Int) - (2 : Int)) 1) st1 ∧
      st1.sent = [] ∧ st1.priceData = [datum 0x3FE0000000000000 10] :=
  ⟨rfl, (C10_poll_cycle_index_safety sampleLib
    { newPoller samplePolicy with priceData := [datum 0x3FE0000000000000 10] }
    [entry "0.5" 10, entry "0.25" 20] rfl rfl (by decide) (by decide)).2.2.2
      (by decide) (by decide)⟩

end Spotwatch
